import Mathlib

/-!
Verification of the openclaw-host-config detection-and-reconciliation engine.

The repository ships a TypeScript presentation layer (src/src/components/*.tsx,
cli.js) and a TypeScript ConfigManager (the cli config class), while the Rust
backend modules named by the README (detection.rs, system.rs,
models_available.rs, openclaw_config.rs and the provider sync commands) are not
part of the source tree.  Definitions embedding that backend are therefore
modelled from the specification and say so in their doc comments; definitions
for the ConfigManager are embedded directly from the TypeScript source.

Machine integers do not overflow in any of the embedded code paths (byte
counts, ports), so numbers are modelled as Nat.
-/

set_option autoImplicit false

/-! ## Provider data model (spec section 3; mirrors the views in Agents.tsx) -/

/-- A provider entry as it exists in either store: the global file or an
agent models.json.  Field shape from spec section 3 and the README
(baseUrl, apiKey, api, models). -/
structure ProviderEntry where
  name : String
  base_url : Option String
  api_key : Option String
  api_kind : Option String
  models : List String
deriving DecidableEq

/-- Sub-agent limits section of the global config (part_001 SubagentsView). -/
structure SubagentsView where
  max_concurrent : Option Nat
  max_spawn_depth : Option Nat
  max_children_per_agent : Option Nat
deriving DecidableEq

/-- Normalized view of the global configuration file
(part_001 OpenClawConfigView, extended with the provider definitions that
apply_sync copies base_url and api_kind from, per spec section 4.7). -/
structure GlobalConfigView where
  providers : List ProviderEntry
  primary_model : Option String
  fallbacks : List String
  models : List String
  max_concurrent : Option Nat
  subagents : SubagentsView
deriving DecidableEq

def GlobalConfigView.provider_names (g : GlobalConfigView) : List String :=
  g.providers.map (fun p => p.name)

def GlobalConfigView.findProvider (g : GlobalConfigView) (n : String) : Option ProviderEntry :=
  g.providers.find? (fun p => p.name == n)

/-- One agent provider file view (Agents.tsx AgentModelsView, with the full
entries rather than the display-only projection). -/
structure AgentConfigView where
  agent_name : String
  providers : List ProviderEntry
deriving DecidableEq

def AgentConfigView.provider_names (a : AgentConfigView) : List String :=
  a.providers.map (fun p => p.name)

def AgentConfigView.findProvider (a : AgentConfigView) (n : String) : Option ProviderEntry :=
  a.providers.find? (fun p => p.name == n)

/-! ## SyncEngine (modelled from the spec)

Modelled from the spec: the Rust sync commands
(get_agent_provider_sync_status, update_agent_providers_from_openclaw) are not
under src/; only their caller Agents.tsx is.  compute_sync_status follows spec
section 3 and the ProviderSyncStatus interface of Agents.tsx; apply_sync
follows spec section 4.7 word by word. -/

/-- Derived sync status (Agents.tsx ProviderSyncStatus). -/
structure ProviderSyncStatus where
  in_sync : Bool
  openclaw_provider_names : List String
  agent_provider_names : List String
  missing_in_agent : List String
  extra_in_agent : List String
deriving DecidableEq

/-- Modelled from the spec: pure set comparison over provider names
(spec section 4.7 and section 3: in_sync iff both difference sets empty). -/
def compute_sync_status (g : GlobalConfigView) (a : AgentConfigView) : ProviderSyncStatus :=
  let gn := g.provider_names
  let an := a.provider_names
  let missing := gn.filter (fun n => !(an.contains n))
  let extra := an.filter (fun n => !(gn.contains n))
  { in_sync := missing.isEmpty && extra.isEmpty
    openclaw_provider_names := gn
    agent_provider_names := an
    missing_in_agent := missing
    extra_in_agent := extra }

/-- Merge one global provider definition with the matching agent entry, if
any: base_url and api_kind always come from the global definition; api_key
and models are kept from the agent entry when present, absent and empty
otherwise (spec section 4.7). -/
def mergeFromGlobal (gE : ProviderEntry) (aE : Option ProviderEntry) : ProviderEntry :=
  match aE with
  | some e =>
    { name := gE.name
      base_url := gE.base_url
      api_key := e.api_key
      api_kind := gE.api_kind
      models := e.models }
  | none =>
    { name := gE.name
      base_url := gE.base_url
      api_key := none
      api_kind := gE.api_kind
      models := [] }

/-- Rewrite one existing agent entry during sync: entries whose name has a
global definition are merged; agent-only entries are left untouched. -/
def syncEntry (g : GlobalConfigView) (e : ProviderEntry) : ProviderEntry :=
  match g.findProvider e.name with
  | some gE => mergeFromGlobal gE (some e)
  | none => e

/-- Modelled from the spec: the additive merge of spec section 4.7.  Existing
agent entries are updated in place (agent-only ones untouched), and global
providers absent from the agent are appended as fresh entries. -/
def apply_sync (g : GlobalConfigView) (a : AgentConfigView) : AgentConfigView :=
  { agent_name := a.agent_name
    providers :=
      a.providers.map (syncEntry g) ++
        (g.providers.filter (fun gE => (a.findProvider gE.name).isNone)).map
          (fun gE => mergeFromGlobal gE none) }

/-! ### Helper lemmas about name-directed lookups -/

theorem mergeFromGlobal_name (gE : ProviderEntry) (aE : Option ProviderEntry) :
    (mergeFromGlobal gE aE).name = gE.name := by
  cases aE <;> rfl

theorem find?_name_eq {l : List ProviderEntry} {n : String} {e : ProviderEntry}
    (h : l.find? (fun p => p.name == n) = some e) : e.name = n := by
  have := List.find?_some h
  simpa using this

theorem syncEntry_name (g : GlobalConfigView) (e : ProviderEntry) :
    (syncEntry g e).name = e.name := by
  unfold syncEntry
  cases h : g.findProvider e.name with
  | none => rfl
  | some gE =>
    simp [mergeFromGlobal_name]
    exact find?_name_eq h

/-- find? by name commutes with mapping a name-preserving function. -/
theorem find?_map_name {f : ProviderEntry → ProviderEntry}
    (hf : ∀ e, (f e).name = e.name) (l : List ProviderEntry) (n : String) :
    (l.map f).find? (fun p => p.name == n) =
      (l.find? (fun p => p.name == n)).map f := by
  induction l with
  | nil => rfl
  | cons e t ih =>
    by_cases h : e.name = n
    · simp [List.find?_cons, hf, h]
    · simp [List.find?_cons, hf, h, ih]

/-- find? by name ignores a filter whose predicate holds on every entry
named n. -/
theorem find?_filter_name {q : ProviderEntry → Bool} (l : List ProviderEntry)
    (n : String) (hq : ∀ e, e.name = n → q e = true) :
    (l.filter q).find? (fun p => p.name == n) =
      l.find? (fun p => p.name == n) := by
  induction l with
  | nil => rfl
  | cons e t ih =>
    by_cases h : e.name = n
    · simp [List.filter_cons, hq e h, List.find?_cons, h]
    · cases hqe : q e with
      | true => simp [List.filter_cons, hqe, List.find?_cons, h, ih]
      | false => simp [List.filter_cons, hqe, List.find?_cons, h, ih]

theorem find?_eq_none_of_not_mem {l : List ProviderEntry} {n : String}
    (h : n ∉ l.map (fun p => p.name)) :
    l.find? (fun p => p.name == n) = none := by
  rw [List.find?_eq_none]
  intro e he
  simp only [beq_iff_eq]
  intro hn
  exact h (List.mem_map.mpr ⟨e, he, hn⟩)

theorem find?_isSome_of_mem {l : List ProviderEntry} {n : String}
    (h : n ∈ l.map (fun p => p.name)) :
    (l.find? (fun p => p.name == n)).isSome := by
  rcases List.mem_map.mp h with ⟨e, he, hn⟩
  rw [List.find?_isSome]
  exact ⟨e, he, by simp [hn]⟩

theorem find?_append {α : Type} (p : α → Bool) (l1 l2 : List α) :
    (l1 ++ l2).find? p =
      match l1.find? p with
      | some e => some e
      | none => l2.find? p := by
  induction l1 with
  | nil => rfl
  | cons e t ih =>
    cases h : p e with
    | true => simp [List.find?_cons, h]
    | false => simp [List.find?_cons, h, ih]

theorem apply_sync_find_of_agent_some (g : GlobalConfigView) (a : AgentConfigView)
    (n : String) (e : ProviderEntry) (he : a.findProvider n = some e) :
    (apply_sync g a).findProvider n = some (syncEntry g e) := by
  unfold apply_sync AgentConfigView.findProvider
  rw [find?_append, find?_map_name (syncEntry_name g)]
  unfold AgentConfigView.findProvider at he
  rw [he]
  rfl

theorem apply_sync_find_of_agent_none (g : GlobalConfigView) (a : AgentConfigView)
    (n : String) (hn : a.findProvider n = none) :
    (apply_sync g a).findProvider n =
      (g.findProvider n).map (fun gE => mergeFromGlobal gE none) := by
  unfold apply_sync AgentConfigView.findProvider
  rw [find?_append, find?_map_name (syncEntry_name g)]
  unfold AgentConfigView.findProvider at hn
  rw [hn]
  simp only [Option.map_none']
  rw [find?_map_name (fun gE => mergeFromGlobal_name gE none),
    find?_filter_name _ n (fun e hne => by simp [hne, hn])]
  rfl

/-! ### Concrete sample views (spec section 8, Scenario A shape) -/

def sampleGlobal : GlobalConfigView :=
  { providers :=
      [ { name := "ollama"
          base_url := some "http://localhost:11434/v1"
          api_key := none
          api_kind := some "openai-completions"
          models := [] }
      , { name := "anthropic"
          base_url := some "https://api.anthropic.com"
          api_key := none
          api_kind := some "anthropic-messages"
          models := [] } ]
    primary_model := some "llama3"
    fallbacks := []
    models := ["llama3"]
    max_concurrent := some 4
    subagents :=
      { max_concurrent := some 8
        max_spawn_depth := some 1
        max_children_per_agent := some 5 } }

def sampleAgent : AgentConfigView :=
  { agent_name := "main"
    providers :=
      [ { name := "ollama"
          base_url := some "http://stale-host:11434"
          api_key := some "sk-1"
          api_kind := some "openai-completions"
          models := ["llama2"] } ] }

/-- An agent-only provider entry absent from sampleGlobal. -/
def extraEntry : ProviderEntry :=
  { name := "custom-local"
    base_url := some "http://localhost:9999"
    api_key := some "sk-custom"
    api_kind := some "openai-completions"
    models := ["tinyllama"] }

def sampleAgentExtra : AgentConfigView :=
  { agent_name := "dev"
    providers := [extraEntry] }

/-- C1: apply_sync merge postcondition.  For every provider name n in the
global view, the merged agent view contains an entry for n whose base_url and
api_kind come from the global definition of n; its api_key and models are the
agent values when n was present in the agent providers, and absent resp. empty
when it was not. -/
theorem apply_sync_merge_post (g : GlobalConfigView) (a : AgentConfigView)
    (n : String) (h : n ∈ g.provider_names) :
    ∃ gE, g.findProvider n = some gE ∧
      (∀ e, a.findProvider n = some e →
        (apply_sync g a).findProvider n =
          some { name := n, base_url := gE.base_url, api_key := e.api_key,
                 api_kind := gE.api_kind, models := e.models }) ∧
      (a.findProvider n = none →
        (apply_sync g a).findProvider n =
          some { name := n, base_url := gE.base_url, api_key := none,
                 api_kind := gE.api_kind, models := [] }) := by
  have hsome : (g.findProvider n).isSome := find?_isSome_of_mem h
  cases hg : g.findProvider n with
  | none => rw [hg] at hsome; simp at hsome
  | some gE =>
    have hname : gE.name = n := find?_name_eq hg
    refine ⟨gE, rfl, ?_, ?_⟩
    · intro e he
      rw [apply_sync_find_of_agent_some g a n e he]
      have hen : e.name = n := find?_name_eq he
      unfold syncEntry
      rw [hen, hg]
      simp [mergeFromGlobal, hname]
    · intro hn
      rw [apply_sync_find_of_agent_none g a n hn, hg]
      simp [mergeFromGlobal, hname]

theorem apply_sync_merge_post_witness :
    ("ollama" ∈ sampleGlobal.provider_names) ∧
      (∃ gE, sampleGlobal.findProvider "ollama" = some gE ∧
        (∀ e, sampleAgent.findProvider "ollama" = some e →
          (apply_sync sampleGlobal sampleAgent).findProvider "ollama" =
            some { name := "ollama", base_url := gE.base_url, api_key := e.api_key,
                   api_kind := gE.api_kind, models := e.models }) ∧
        (sampleAgent.findProvider "ollama" = none →
          (apply_sync sampleGlobal sampleAgent).findProvider "ollama" =
            some { name := "ollama", base_url := gE.base_url, api_key := none,
                   api_kind := gE.api_kind, models := [] })) :=
  ⟨by decide, apply_sync_merge_post sampleGlobal sampleAgent "ollama" (by decide)⟩

/-- C3: apply_sync never deletes.  A provider present in the agent but absent
from the global provider names survives the merge with every field
unchanged. -/
theorem apply_sync_never_deletes (g : GlobalConfigView) (a : AgentConfigView)
    (n : String) (e : ProviderEntry) (he : a.findProvider n = some e)
    (hg : n ∉ g.provider_names) :
    (apply_sync g a).findProvider n = some e := by
  rw [apply_sync_find_of_agent_some g a n e he]
  have hen : e.name = n := find?_name_eq he
  unfold syncEntry
  rw [hen]
  unfold GlobalConfigView.findProvider
  rw [find?_eq_none_of_not_mem hg]

theorem apply_sync_never_deletes_witness :
    (sampleAgentExtra.findProvider "custom-local" = some extraEntry) ∧
      ("custom-local" ∉ sampleGlobal.provider_names) ∧
      (apply_sync sampleGlobal sampleAgentExtra).findProvider "custom-local" =
        some extraEntry :=
  ⟨by decide, by decide,
    apply_sync_never_deletes sampleGlobal sampleAgentExtra "custom-local" extraEntry
      (by decide) (by decide)⟩

/-! ### Provider names after a merge -/

theorem apply_sync_provider_names (g : GlobalConfigView) (a : AgentConfigView) :
    (apply_sync g a).provider_names =
      a.provider_names ++
        ((g.providers.filter (fun gE => (a.findProvider gE.name).isNone)).map
          (fun p => p.name)) := by
  unfold apply_sync AgentConfigView.provider_names
  simp only [List.map_append, List.map_map]
  have h1 : a.providers.map ((fun p => p.name) ∘ syncEntry g) =
      a.providers.map (fun p => p.name) :=
    List.map_congr_left (fun e _ => by
      simp only [Function.comp_apply]
      exact syncEntry_name g e)
  have h2 : ((g.providers.filter (fun gE => (a.findProvider gE.name).isNone)).map
        ((fun p => p.name) ∘ fun gE => mergeFromGlobal gE none)) =
      ((g.providers.filter (fun gE => (a.findProvider gE.name).isNone)).map
        (fun p => p.name)) :=
    List.map_congr_left (fun e _ => by
      simp only [Function.comp_apply]
      exact mergeFromGlobal_name e none)
  rw [h1, h2]

theorem mem_provider_names_apply_sync (g : GlobalConfigView) (a : AgentConfigView)
    (n : String) (h : n ∈ g.provider_names) :
    n ∈ (apply_sync g a).provider_names := by
  rw [apply_sync_provider_names]
  rcases List.mem_map.mp h with ⟨gE, hgE, hn⟩
  cases ha : a.findProvider n with
  | some e =>
    apply List.mem_append_left
    exact List.mem_map.mpr
      ⟨e, List.mem_of_find?_eq_some ha, find?_name_eq ha⟩
  | none =>
    apply List.mem_append_right
    refine List.mem_map.mpr ⟨gE, List.mem_filter.mpr ⟨hgE, ?_⟩, hn⟩
    rw [hn]
    unfold AgentConfigView.findProvider at ha ⊢
    simp [ha]

/-- C2 counterexample: the round-trip claim as stated is false.  With a
global view holding one provider p and an agent holding only an unrelated
provider q, the post-merge status has an empty missing_in_agent but q is
still extra_in_agent, so in_sync is false. -/
theorem sync_roundtrip_in_sync_cex :
    (compute_sync_status
        { providers :=
            [ { name := "p", base_url := some "http://g", api_key := none,
                api_kind := some "openai-completions", models := [] } ]
          primary_model := none
          fallbacks := []
          models := []
          max_concurrent := none
          subagents := { max_concurrent := none, max_spawn_depth := none,
                         max_children_per_agent := none } }
        (apply_sync
          { providers :=
              [ { name := "p", base_url := some "http://g", api_key := none,
                  api_kind := some "openai-completions", models := [] } ]
            primary_model := none
            fallbacks := []
            models := []
            max_concurrent := none
            subagents := { max_concurrent := none, max_spawn_depth := none,
                           max_children_per_agent := none } }
          { agent_name := "main"
            providers :=
              [ { name := "q", base_url := none, api_key := some "sk-q",
                  api_kind := none, models := [] } ] })).missing_in_agent = [] ∧
    (compute_sync_status
        { providers :=
            [ { name := "p", base_url := some "http://g", api_key := none,
                api_kind := some "openai-completions", models := [] } ]
          primary_model := none
          fallbacks := []
          models := []
          max_concurrent := none
          subagents := { max_concurrent := none, max_spawn_depth := none,
                         max_children_per_agent := none } }
        (apply_sync
          { providers :=
              [ { name := "p", base_url := some "http://g", api_key := none,
                  api_kind := some "openai-completions", models := [] } ]
            primary_model := none
            fallbacks := []
            models := []
            max_concurrent := none
            subagents := { max_concurrent := none, max_spawn_depth := none,
                           max_children_per_agent := none } }
          { agent_name := "main"
            providers :=
              [ { name := "q", base_url := none, api_key := some "sk-q",
                  api_kind := none, models := [] } ] })).in_sync = false := by
  decide

/-- C2 (amended): after apply_sync the freshly computed status always has an
empty missing_in_agent, and it reports in_sync = true whenever the agent had
no provider outside the global provider set (the merge never deletes
agent-only providers, so those keep extra_in_agent nonempty). -/
theorem sync_roundtrip_missing_empty (g : GlobalConfigView) (a : AgentConfigView) :
    ((compute_sync_status g (apply_sync g a)).missing_in_agent = []) ∧
      ((∀ n ∈ a.provider_names, n ∈ g.provider_names) →
        (compute_sync_status g (apply_sync g a)).in_sync = true) := by
  have hmiss : (compute_sync_status g (apply_sync g a)).missing_in_agent = [] := by
    unfold compute_sync_status
    simp only [List.filter_eq_nil_iff]
    intro n hn
    simp only [Bool.not_eq_true', Bool.not_eq_false]
    exact List.elem_eq_true_of_mem (mem_provider_names_apply_sync g a n hn)
  refine ⟨hmiss, ?_⟩
  intro hsub
  have hextra : (compute_sync_status g (apply_sync g a)).extra_in_agent = [] := by
    unfold compute_sync_status
    simp only [List.filter_eq_nil_iff]
    intro n hn
    simp only [Bool.not_eq_true', Bool.not_eq_false]
    apply List.elem_eq_true_of_mem
    rw [apply_sync_provider_names] at hn
    rcases List.mem_append.mp hn with hA | hG
    · exact hsub n hA
    · rcases List.mem_map.mp hG with ⟨gE, hgE, hname⟩
      exact hname ▸ List.mem_map.mpr ⟨gE, (List.mem_filter.mp hgE).1, rfl⟩
  unfold compute_sync_status at hmiss hextra ⊢
  simp only at hmiss hextra ⊢
  rw [hmiss, hextra]
  rfl

theorem sync_roundtrip_missing_empty_witness :
    ((compute_sync_status sampleGlobal
        (apply_sync sampleGlobal sampleAgent)).missing_in_agent = []) ∧
      (compute_sync_status sampleGlobal
        (apply_sync sampleGlobal sampleAgent)).in_sync = true :=
  ⟨(sync_roundtrip_missing_empty sampleGlobal sampleAgent).1,
    (sync_roundtrip_missing_empty sampleGlobal sampleAgent).2 (by decide)⟩

theorem syncEntry_api_key (g : GlobalConfigView) (e : ProviderEntry) :
    (syncEntry g e).api_key = e.api_key := by
  unfold syncEntry
  cases g.findProvider e.name <;> rfl

theorem syncEntry_models (g : GlobalConfigView) (e : ProviderEntry) :
    (syncEntry g e).models = e.models := by
  unfold syncEntry
  cases g.findProvider e.name <;> rfl

theorem filter_after_sync_nil (g : GlobalConfigView) (a : AgentConfigView) :
    g.providers.filter
        (fun gE => ((apply_sync g a).findProvider gE.name).isNone) = [] := by
  rw [List.filter_eq_nil_iff]
  intro gE hgE
  have hmem : gE.name ∈ (apply_sync g a).provider_names :=
    mem_provider_names_apply_sync g a gE.name (List.mem_map.mpr ⟨gE, hgE, rfl⟩)
  have := find?_isSome_of_mem hmem
  unfold AgentConfigView.findProvider
  simp only [Bool.not_eq_true, Option.isNone_eq_false_iff]
  exact this

/-- C4: apply_sync idempotence.  Re-syncing an already synced agent view
yields the same provider name list, and for every name the looked-up api_key
and models are unchanged. -/
theorem apply_sync_idempotent (g : GlobalConfigView) (a : AgentConfigView) :
    ((apply_sync g (apply_sync g a)).provider_names =
        (apply_sync g a).provider_names) ∧
      ∀ n, ((apply_sync g (apply_sync g a)).findProvider n).map
            (fun e => (e.api_key, e.models)) =
          ((apply_sync g a).findProvider n).map
            (fun e => (e.api_key, e.models)) := by
  have hstep : (apply_sync g (apply_sync g a)).providers =
      (apply_sync g a).providers.map (syncEntry g) ++
        (g.providers.filter
            (fun gE => ((apply_sync g a).findProvider gE.name).isNone)).map
          (fun gE => mergeFromGlobal gE none) := rfl
  have hprov : (apply_sync g (apply_sync g a)).providers =
      (apply_sync g a).providers.map (syncEntry g) := by
    rw [hstep, filter_after_sync_nil g a]
    simp
  constructor
  · unfold AgentConfigView.provider_names
    rw [hprov, List.map_map]
    exact List.map_congr_left (fun e _ => by
      simp only [Function.comp_apply]
      exact syncEntry_name g e)
  · intro n
    unfold AgentConfigView.findProvider
    rw [hprov, find?_map_name (syncEntry_name g)]
    cases (apply_sync g a).providers.find? (fun p => p.name == n) with
    | none => rfl
    | some e =>
      simp only [Option.map_some']
      rw [syncEntry_api_key, syncEntry_models]

/-! ## ConfigStore: loading the global file (modelled from the spec)

Modelled from the spec: openclaw_config.rs (load of openclaw.json) is not
under src/; part_001 only lists the required fields
(models.providers, agents.defaults.model, maxConcurrent, subagents).
A RawGlobalConfig is a document that parsed, with each required top-level
section either present or absent. -/

/-- Modelled from the spec: a parsed global configuration document before
validation; optional fields model presence of the required sections. -/
structure RawGlobalConfig where
  models_providers : Option (List ProviderEntry)
  agents_defaults_model : Option (Option String)
  agents_defaults_models : List String
  agents_defaults_fallbacks : List String
  max_concurrent_field : Option Nat
  subagents_field : Option SubagentsView
deriving DecidableEq

/-- Structured load failure taxonomy (spec section 7): file absent, generic
parse failure, or a validation failure naming the missing section. -/
inductive ConfigLoadError where
  | fileAbsent
  | parseFailure
  | missingSection (sectionName : String)
deriving DecidableEq

/-- Modelled from the spec: load_global validates the parsed document and
reports the first missing required section by name
(spec sections 4.6 and 6; field names from part_001). -/
def load_global (r : RawGlobalConfig) : Except ConfigLoadError GlobalConfigView :=
  match r.models_providers with
  | none => .error (.missingSection "models.providers")
  | some provs =>
    match r.agents_defaults_model with
    | none => .error (.missingSection "agents.defaults.model")
    | some primary =>
      match r.max_concurrent_field with
      | none => .error (.missingSection "maxConcurrent")
      | some mc =>
        match r.subagents_field with
        | none => .error (.missingSection "subagents")
        | some sub =>
          .ok { providers := provs
                primary_model := primary
                fallbacks := r.agents_defaults_fallbacks
                models := r.agents_defaults_models
                max_concurrent := some mc
                subagents := sub }

/-- The named section is indeed absent from the document. -/
def sectionMissing (r : RawGlobalConfig) (s : String) : Prop :=
  (s = "models.providers" ∧ r.models_providers = none) ∨
  (s = "agents.defaults.model" ∧ r.agents_defaults_model = none) ∨
  (s = "maxConcurrent" ∧ r.max_concurrent_field = none) ∨
  (s = "subagents" ∧ r.subagents_field = none)

/-- C6: load_global validation errors name the missing section.  Any parsed
document lacking a required section yields a missingSection error naming an
actually missing section, and a document missing exactly the sub-agent
section yields the validation failure naming "subagents". -/
theorem load_global_missing_section (r : RawGlobalConfig)
    (h : r.models_providers = none ∨ r.agents_defaults_model = none ∨
      r.max_concurrent_field = none ∨ r.subagents_field = none) :
    (∃ s, load_global r = .error (.missingSection s) ∧ sectionMissing r s) ∧
      (r.subagents_field = none → r.models_providers ≠ none →
        r.agents_defaults_model ≠ none → r.max_concurrent_field ≠ none →
        load_global r = .error (.missingSection "subagents")) := by
  constructor
  · cases hp : r.models_providers with
    | none =>
      exact ⟨"models.providers", by simp [load_global, hp], Or.inl ⟨rfl, hp⟩⟩
    | some provs =>
      cases hm : r.agents_defaults_model with
      | none =>
        exact ⟨"agents.defaults.model", by simp [load_global, hp, hm],
          Or.inr (Or.inl ⟨rfl, hm⟩)⟩
      | some primary =>
        cases hc : r.max_concurrent_field with
        | none =>
          exact ⟨"maxConcurrent", by simp [load_global, hp, hm, hc],
            Or.inr (Or.inr (Or.inl ⟨rfl, hc⟩))⟩
        | some mc =>
          cases hs : r.subagents_field with
          | none =>
            exact ⟨"subagents", by simp [load_global, hp, hm, hc, hs],
              Or.inr (Or.inr (Or.inr ⟨rfl, hs⟩))⟩
          | some sub =>
            rw [hp, hm, hc, hs] at h
            rcases h with h | h | h | h <;> exact absurd h (by simp)
  · intro hs hp hm hc
    rcases Option.ne_none_iff_exists.mp hp with ⟨provs, hp2⟩
    rcases Option.ne_none_iff_exists.mp hm with ⟨primary, hm2⟩
    rcases Option.ne_none_iff_exists.mp hc with ⟨mc, hc2⟩
    simp [load_global, hp2.symm, hm2.symm, hc2.symm, hs]

theorem load_global_missing_section_witness :
    (((RawGlobalConfig.mk (some []) (some (some "llama3")) [] [] (some 4)
            none).models_providers = none ∨
        (RawGlobalConfig.mk (some []) (some (some "llama3")) [] [] (some 4)
            none).agents_defaults_model = none ∨
        (RawGlobalConfig.mk (some []) (some (some "llama3")) [] [] (some 4)
            none).max_concurrent_field = none ∨
        (RawGlobalConfig.mk (some []) (some (some "llama3")) [] [] (some 4)
            none).subagents_field = none)) ∧
      load_global
          (RawGlobalConfig.mk (some []) (some (some "llama3")) [] [] (some 4)
            none) =
        .error (.missingSection "subagents") :=
  ⟨Or.inr (Or.inr (Or.inr rfl)),
    (load_global_missing_section
        (RawGlobalConfig.mk (some []) (some (some "llama3")) [] [] (some 4) none)
        (Or.inr (Or.inr (Or.inr rfl)))).2
      rfl (by simp) (by simp) (by simp)⟩

/-! ## Probe and RuntimeDetector (modelled from the spec)

Modelled from the spec: detection.rs is not under src/; LocalLLMs.tsx only
declares the LLMStatus and LocalLLMDetection shapes.  The abstract probe
inputs capture what the environment answers: executable lookup, TCP port
probe, version extraction, and whether the whole per-runtime check failed
(spec sections 4.1 and 4.2).  Per the data-model invariant of spec section 3
(running implies installed), a runtime is reported running only when it is
also installed. -/

/-- One runtime status (LocalLLMs.tsx LLMStatus). -/
structure RuntimeStatus where
  installed : Bool
  running : Bool
  version : Option String
  path : Option String
deriving DecidableEq

/-- Modelled from the spec: the environment answers for one runtime check. -/
structure RuntimeProbe where
  exe_path : Option String
  port_is_open : Bool
  version_line : Option String
  check_failed : Bool
deriving DecidableEq

/-- Modelled from the spec: one detection strategy (spec section 4.2).
A failed check degrades to not installed / not running; otherwise installed
comes from executable presence and running from the port probe, gated on
installed so the section 3 invariant holds. -/
def detect_runtime (p : RuntimeProbe) : RuntimeStatus :=
  if p.check_failed then
    { installed := false, running := false, version := none, path := none }
  else
    { installed := p.exe_path.isSome
      running := p.exe_path.isSome && p.port_is_open
      version := if p.exe_path.isSome then p.version_line else none
      path := p.exe_path }

/-- Detection result over the fixed runtime set
(LocalLLMs.tsx LocalLLMDetection). -/
structure LocalLLMDetection where
  ollama : RuntimeStatus
  lm_studio : RuntimeStatus
  vllm : RuntimeStatus
deriving DecidableEq

/-- Modelled from the spec: detect_local_llms runs the three independent
runtime checks (spec section 4.2). -/
def detect_local_llms (ollamaProbe lmStudioProbe vllmProbe : RuntimeProbe) :
    LocalLLMDetection :=
  { ollama := detect_runtime ollamaProbe
    lm_studio := detect_runtime lmStudioProbe
    vllm := detect_runtime vllmProbe }

theorem detect_runtime_running_installed (p : RuntimeProbe)
    (h : (detect_runtime p).running = true) :
    (detect_runtime p).installed = true := by
  unfold detect_runtime at h ⊢
  split_ifs at h ⊢ with hf hs <;>
    (simp only [Bool.and_eq_true] at h; exact h.1)

/-- C7: detection invariant.  In every RuntimeStatus of a detection result
(ollama, lm_studio, vllm), running implies installed; no returned status has
running = true with installed = false. -/
theorem detect_running_implies_installed
    (ollamaProbe lmStudioProbe vllmProbe : RuntimeProbe) :
    (((detect_local_llms ollamaProbe lmStudioProbe vllmProbe).ollama.running = true →
        (detect_local_llms ollamaProbe lmStudioProbe vllmProbe).ollama.installed = true) ∧
      ((detect_local_llms ollamaProbe lmStudioProbe vllmProbe).lm_studio.running = true →
        (detect_local_llms ollamaProbe lmStudioProbe vllmProbe).lm_studio.installed = true) ∧
      ((detect_local_llms ollamaProbe lmStudioProbe vllmProbe).vllm.running = true →
        (detect_local_llms ollamaProbe lmStudioProbe vllmProbe).vllm.installed = true)) :=
  ⟨detect_runtime_running_installed ollamaProbe,
    detect_runtime_running_installed lmStudioProbe,
    detect_runtime_running_installed vllmProbe⟩

theorem detect_running_implies_installed_witness :
    ((detect_local_llms
          (RuntimeProbe.mk (some "/usr/local/bin/ollama") true (some "0.3.12") false)
          (RuntimeProbe.mk none false none false)
          (RuntimeProbe.mk none false none true)).ollama.running = true) ∧
      (detect_local_llms
          (RuntimeProbe.mk (some "/usr/local/bin/ollama") true (some "0.3.12") false)
          (RuntimeProbe.mk none false none false)
          (RuntimeProbe.mk none false none true)).ollama.installed = true :=
  ⟨by decide,
    (detect_running_implies_installed
        (RuntimeProbe.mk (some "/usr/local/bin/ollama") true (some "0.3.12") false)
        (RuntimeProbe.mk none false none false)
        (RuntimeProbe.mk none false none true)).1 (by decide)⟩

/-! ## Probe: port_open (modelled from the spec) -/

/-- Modelled from the spec: the outcome the operating system reports for a
short-lived TCP connect attempt (spec section 4.1). -/
inductive ConnectOutcome where
  | connected
  | refused
  | timedOut
  | unreachable
deriving DecidableEq

set_option linter.unusedVariables false in
/-- Modelled from the spec: port_open returns a boolean, true only when the
connect attempt succeeded and false on every error outcome; it is a total
function, so no outcome raises (spec section 4.1).  The host, port and
timeout arguments mirror the source signature; the boolean result depends
only on the connect outcome. -/
def port_open (host : String) (port : Nat) (timeout_ms : Nat)
    (outcome : ConnectOutcome) : Bool :=
  match outcome with
  | .connected => true
  | .refused => false
  | .timedOut => false
  | .unreachable => false

/-- C8: port_open totality.  For every host, port, timeout and connect
outcome the probe yields a boolean (totality of the embedding), and every
error outcome (refused, timed out, unreachable) yields false; a port with no
listener answers refused, hence false. -/
theorem port_open_total_false_on_error (host : String) (port timeout_ms : Nat)
    (outcome : ConnectOutcome) :
    (port_open host port timeout_ms outcome = true ∨
        port_open host port timeout_ms outcome = false) ∧
      (outcome ≠ ConnectOutcome.connected →
        port_open host port timeout_ms outcome = false) := by
  constructor
  · cases h : port_open host port timeout_ms outcome
    · exact Or.inr rfl
    · exact Or.inl rfl
  · intro h
    cases outcome with
    | connected => exact absurd rfl h
    | refused => rfl
    | timedOut => rfl
    | unreachable => rfl

theorem port_open_total_false_on_error_witness :
    (ConnectOutcome.refused ≠ ConnectOutcome.connected) ∧
      port_open "127.0.0.1" 8000 500 ConnectOutcome.refused = false :=
  ⟨by decide,
    (port_open_total_false_on_error "127.0.0.1" 8000 500 ConnectOutcome.refused).2
      (by decide)⟩

/-! ## SystemInfo: human-readable memory formatting (modelled from the spec)

Modelled from the spec: system.rs (bytes_to_human) is not under src/;
LocalLLMs.tsx only declares the SystemInfo shape with the derived
total_memory_human and available_memory_human strings.  Formatting picks the
largest binary-prefixed unit (B, KB, MB, GB, TB) whose magnitude is at least
one and renders the magnitude with one decimal place (spec section 4.4,
example "16.0 GB").  The magnitude is kept in tenths as a Nat; the numeric
literals below are 1024, 1024 squared, cubed and to the fourth. -/

/-- Size in bytes of the unit at index k (0 = B, 1 = KB, 2 = MB, 3 = GB,
4 and above = TB, the largest rendered unit). -/
def unitSize (k : Nat) : Nat :=
  match k with
  | 0 => 1
  | 1 => 1024
  | 2 => 1048576
  | 3 => 1073741824
  | _ => 1099511627776

/-- Name of the unit at index k. -/
def unitName (k : Nat) : String :=
  match k with
  | 0 => "B"
  | 1 => "KB"
  | 2 => "MB"
  | 3 => "GB"
  | _ => "TB"

/-- Index of the largest unit whose size fits into b (0 for b below 1 KB). -/
def unitIndex (b : Nat) : Nat :=
  if 1099511627776 ≤ b then 4
  else if 1073741824 ≤ b then 3
  else if 1048576 ≤ b then 2
  else if 1024 ≤ b then 1
  else 0

/-- Displayed magnitude in tenths: the byte count divided by the chosen unit
size, truncated to one decimal place. -/
def magnitudeTenths (b : Nat) : Nat :=
  b * 10 / unitSize (unitIndex b)

/-- Modelled from the spec: render a byte count with one decimal place and
the chosen binary-prefixed unit. -/
def format_human (b : Nat) : String :=
  toString (magnitudeTenths b / 10) ++ "." ++ toString (magnitudeTenths b % 10)
    ++ " " ++ unitName (unitIndex b)

/-- The byte value denoted by the formatted output: the displayed magnitude
(in tenths) times the chosen unit size. -/
def humanValueTenths (b : Nat) : Nat :=
  magnitudeTenths b * unitSize (unitIndex b)

theorem unitIndex_le_four (b : Nat) : unitIndex b ≤ 4 := by
  unfold unitIndex
  split_ifs <;> omega

theorem unitSize_pos (k : Nat) : 0 < unitSize k := by
  rcases k with _ | _ | _ | _ | n <;> simp [unitSize]

theorem unitSize_le_succ (k : Nat) : unitSize k ≤ unitSize (k + 1) := by
  rcases k with _ | _ | _ | _ | n <;> simp [unitSize]

theorem unitSize_mono : Monotone unitSize :=
  monotone_nat_of_le_succ unitSize_le_succ

theorem unitSize_le_self (b : Nat) (h : 1 ≤ unitIndex b) :
    unitSize (unitIndex b) ≤ b := by
  unfold unitIndex at h ⊢
  split_ifs at h ⊢ with h4 h3 h2 h1 <;> simp [unitSize] <;> omega

theorem lt_unitSize_succ (b : Nat) (h : unitIndex b < 4) :
    b < unitSize (unitIndex b + 1) := by
  unfold unitIndex at h ⊢
  split_ifs at h ⊢ with h4 h3 h2 h1 <;> simp [unitSize] <;> omega

theorem unitIndex_mono {b1 b2 : Nat} (h : b1 ≤ b2) :
    unitIndex b1 ≤ unitIndex b2 := by
  unfold unitIndex
  split_ifs <;> omega

theorem magnitudeTenths_ge_ten (b : Nat) (h : 1 ≤ unitIndex b) :
    10 ≤ magnitudeTenths b := by
  unfold magnitudeTenths
  rw [Nat.le_div_iff_mul_le (unitSize_pos (unitIndex b))]
  have := unitSize_le_self b h
  calc 10 * unitSize (unitIndex b) ≤ 10 * b := Nat.mul_le_mul_left 10 this
    _ = b * 10 := Nat.mul_comm 10 b

theorem unitIndex_largest (b : Nat) (j : Nat) (hj : j ≤ 4)
    (hfits : unitSize j ≤ b) : j ≤ unitIndex b := by
  interval_cases j <;> simp [unitSize] at hfits <;> unfold unitIndex <;>
    split_ifs <;> omega

/-- C9 counterexample: the displayed magnitude alone is not monotone in the
byte count.  1023 bytes renders as "1023.0 B" while 1024 bytes renders as
"1.0 KB": the byte count grew but the formatted magnitude dropped from
1023.0 to 1.0 (magnitudes kept in tenths). -/
theorem format_human_magnitude_cex :
    (1023 ≤ 1024) ∧ format_human 1023 = "1023.0 B" ∧
      format_human 1024 = "1.0 KB" ∧
      magnitudeTenths 1024 < magnitudeTenths 1023 :=
  ⟨by norm_num, by decide, by decide, by decide⟩

/-- C9 (amended): format_human is a pure function of the byte count by
construction; the byte value denoted by its output (displayed magnitude
times chosen unit size) is monotonically non-decreasing in the byte count;
the displayed magnitude is at least 1.0 whenever a unit above bytes is
chosen; and the chosen unit is the largest one that fits into the byte
count, so it is the largest unit in which the magnitude is at least 1. -/
theorem format_human_value_monotone (b1 b2 : Nat) (h : b1 ≤ b2) :
    humanValueTenths b1 ≤ humanValueTenths b2 ∧
      (1 ≤ unitIndex b1 → 10 ≤ magnitudeTenths b1) ∧
      (∀ j, j ≤ 4 → unitSize j ≤ b1 → j ≤ unitIndex b1) := by
  refine ⟨?_, magnitudeTenths_ge_ten b1, unitIndex_largest b1⟩
  unfold humanValueTenths magnitudeTenths
  rcases Nat.lt_or_ge (unitIndex b1) (unitIndex b2) with hlt | hge
  · have hk4 : unitIndex b1 < 4 := lt_of_lt_of_le hlt (unitIndex_le_four b2)
    have hb1lt : b1 < unitSize (unitIndex b1 + 1) := lt_unitSize_succ b1 hk4
    have hstep : unitSize (unitIndex b1 + 1) ≤ unitSize (unitIndex b2) :=
      unitSize_mono (Nat.succ_le_of_lt hlt)
    have hub2 : unitSize (unitIndex b2) ≤ b2 :=
      unitSize_le_self b2 (Nat.one_le_iff_ne_zero.mpr (by omega))
    have hdiv : 10 ≤ b2 * 10 / unitSize (unitIndex b2) := by
      rw [Nat.le_div_iff_mul_le (unitSize_pos (unitIndex b2))]
      calc 10 * unitSize (unitIndex b2) ≤ 10 * b2 := Nat.mul_le_mul_left 10 hub2
        _ = b2 * 10 := Nat.mul_comm 10 b2
    calc b1 * 10 / unitSize (unitIndex b1) * unitSize (unitIndex b1)
        ≤ b1 * 10 := Nat.div_mul_le_self _ _
      _ ≤ unitSize (unitIndex b1 + 1) * 10 :=
          Nat.mul_le_mul_right 10 (Nat.le_of_lt hb1lt)
      _ ≤ unitSize (unitIndex b2) * 10 := Nat.mul_le_mul_right 10 hstep
      _ = 10 * unitSize (unitIndex b2) := Nat.mul_comm _ _
      _ ≤ b2 * 10 / unitSize (unitIndex b2) * unitSize (unitIndex b2) :=
          Nat.mul_le_mul_right _ hdiv
  · have heq : unitIndex b1 = unitIndex b2 :=
      Nat.le_antisymm (unitIndex_mono h) hge
    rw [heq]
    exact Nat.mul_le_mul_right _
      (Nat.div_le_div_right (Nat.mul_le_mul_right 10 h))

theorem format_human_value_monotone_witness :
    (512 ≤ 17179869184) ∧
      (humanValueTenths 512 ≤ humanValueTenths 17179869184 ∧
        (1 ≤ unitIndex 512 → 10 ≤ magnitudeTenths 512) ∧
        (∀ j, j ≤ 4 → unitSize j ≤ 512 → j ≤ unitIndex 512)) :=
  ⟨by norm_num, format_human_value_monotone 512 17179869184 (by norm_num)⟩

/-! ## ConfigManager (embedded from the TypeScript source, part_004)

The cli ConfigManager holds a Config with a gateway section, a models map
and an apiKeys map; save() serializes it with JSON.stringify(config, null, 2)
and writes it with a single writeFileSync call directly to the config path,
with no temporary file and no rename.  JS objects are embedded as ordered
association lists (insertion order preserved, assignment to an existing key
keeps its position, a new key is appended). -/

structure GatewayConfig where
  enabled : Bool
  port : Nat
  timeout_ms : Option Nat
deriving DecidableEq

structure CliConfig where
  gateway : GatewayConfig
  models : List (String × String)
  apiKeys : List (String × String)
deriving DecidableEq

/-- getDefaultConfig from the source: gateway enabled on port 8080 with a
30000 ms timeout, empty models and apiKeys maps. -/
def getDefaultConfig : CliConfig :=
  { gateway := { enabled := true, port := 8080, timeout_ms := some 30000 }
    models := []
    apiKeys := [] }

/-- First-match association lookup (JS property read on a string-keyed
object). -/
def lookupAssoc (l : List (String × String)) (s : String) : Option String :=
  match l with
  | [] => none
  | p :: t => if p.1 = s then some p.2 else lookupAssoc t s

/-- JS property assignment on a string-keyed object: replace in place when
the key exists, append otherwise. -/
def setAssoc (l : List (String × String)) (s k : String) :
    List (String × String) :=
  match l with
  | [] => [(s, k)]
  | p :: t => if p.1 = s then (p.1, k) :: t else p :: setAssoc t s k

/-- ConfigManager.setModel: this.config.models[name] = value. -/
def setModel (c : CliConfig) (name value : String) : CliConfig :=
  { c with models := setAssoc c.models name value }

/-- ConfigManager.getApiKey: `this.config.apiKeys[service] || null`.
A missing property reads as undefined and the empty string is falsy, so
both map to null. -/
def getApiKey (c : CliConfig) (service : String) : Option String :=
  match lookupAssoc c.apiKeys service with
  | none => none
  | some k => if k = "" then none else some k

/-- ConfigManager.setApiKey: this.config.apiKeys[service] = key. -/
def setApiKey (c : CliConfig) (service key : String) : CliConfig :=
  { c with apiKeys := setAssoc c.apiKeys service key }

/-! ### Serialization: JSON.stringify(config, null, 2)

String escaping inside keys and values is not modelled; the embedded
documents use plain keys and values.  Braces inside string literals are
written with escape codes. -/

def quoteJson (s : String) : String := "\"" ++ s ++ "\""

def joinLines (sep : String) (ls : List String) : String :=
  match ls with
  | [] => ""
  | [l] => l
  | l :: rest => l ++ sep ++ joinLines sep rest

/-- Render an object from already-rendered field lines, with the closing
brace indented by pad and each field indented by inner. -/
def renderObject (pad inner : String) (fields : List String) : String :=
  if fields.isEmpty then "\x7b\x7d"
  else
    "\x7b\n" ++ joinLines ",\n" (fields.map (fun f => inner ++ f)) ++ "\n"
      ++ pad ++ "\x7d"

def jsonBool (b : Bool) : String := if b then "true" else "false"

def renderStringPairs (ps : List (String × String)) : List String :=
  ps.map (fun p => quoteJson p.1 ++ ": " ++ quoteJson p.2)

def gatewayFields (g : GatewayConfig) : List String :=
  [ quoteJson "enabled" ++ ": " ++ jsonBool g.enabled
  , quoteJson "port" ++ ": " ++ toString g.port ] ++
    (match g.timeout_ms with
     | some t => [quoteJson "timeout" ++ ": " ++ toString t]
     | none => [])

/-- The serialized document ConfigManager.save writes. -/
def stringifyConfig (c : CliConfig) : String :=
  renderObject "" "  "
    [ quoteJson "gateway" ++ ": " ++ renderObject "  " "    " (gatewayFields c.gateway)
    , quoteJson "models" ++ ": " ++ renderObject "  " "    " (renderStringPairs c.models)
    , quoteJson "apiKeys" ++ ": " ++ renderObject "  " "    " (renderStringPairs c.apiKeys) ]

/-! ### The on-disk effect of save()

writeFileSync truncates the destination and then writes the buffer, so the
observable on-disk contents during one save execution are: the prior
contents (before the call), and, once truncation happened, every prefix of
the new document, the full document being the final state of a completed
write.  File contents are modelled as character lists. -/

/-- All on-disk contents observable at some point of a direct
truncate-then-write of new over old, including interrupted executions. -/
def directWriteStates (old new : List Char) : List (List Char) :=
  old :: (List.range (new.length + 1)).map (fun k => new.take k)

/-- Observable on-disk contents during ConfigManager.save of config c over
prior file contents old. -/
def saveStates (old : List Char) (c : CliConfig) : List (List Char) :=
  directWriteStates old (stringifyConfig c).data

set_option maxRecDepth 10000 in
/-- C5 counterexample: the all-or-nothing claim fails on ConfigManager.save.
Saving an updated config (a model added to the default config) over the
previously persisted default document passes through the one-character
on-disk state holding only the opening brace, which is neither the prior
document nor the full new document: an execution interrupted there leaves a
truncated, syntactically invalid file. -/
theorem save_not_atomic_cex :
    ¬ (∀ s ∈ saveStates (stringifyConfig getDefaultConfig).data
          (setModel getDefaultConfig "primary" "qwen2.5"),
        s = (stringifyConfig getDefaultConfig).data ∨
          s = (stringifyConfig
                (setModel getDefaultConfig "primary" "qwen2.5")).data) := by
  intro h
  have hmem : (stringifyConfig
        (setModel getDefaultConfig "primary" "qwen2.5")).data.take 1 ∈
      saveStates (stringifyConfig getDefaultConfig).data
        (setModel getDefaultConfig "primary" "qwen2.5") := by
    unfold saveStates directWriteStates
    exact List.mem_cons_of_mem _
      (List.mem_map.mpr ⟨1, List.mem_range.mpr (by decide), rfl⟩)
  rcases h _ hmem with h1 | h2
  · exact absurd h1 (by decide)
  · exact absurd h2 (by decide)

/-- C5 (amended): ConfigManager.save writes the serialized document directly
with one writeFileSync call and no temp-file-plus-rename step.  A completed
save persists the full updated document, but every on-disk state observable
during the write is only guaranteed to be the prior contents or a prefix of
the new document, so a write failing partway can leave a truncated file
rather than the prior contents. -/
theorem save_direct_write_prefix (old : List Char) (c : CliConfig)
    (s : List Char) (hs : s ∈ saveStates old c) :
    (s = old ∨ ∃ k, k ≤ (stringifyConfig c).data.length ∧
        s = (stringifyConfig c).data.take k) ∧
      (stringifyConfig c).data ∈ saveStates old c := by
  constructor
  · unfold saveStates directWriteStates at hs
    rcases List.mem_cons.mp hs with h | h
    · exact Or.inl h
    · rcases List.mem_map.mp h with ⟨k, hk, hts⟩
      have hk2 := List.mem_range.mp hk
      exact Or.inr ⟨k, by omega, hts.symm⟩
  · unfold saveStates directWriteStates
    apply List.mem_cons_of_mem
    refine List.mem_map.mpr
      ⟨(stringifyConfig c).data.length, List.mem_range.mpr (by omega), ?_⟩
    exact List.take_length _

theorem save_direct_write_prefix_witness :
    ((stringifyConfig getDefaultConfig).data ∈
        saveStates (stringifyConfig getDefaultConfig).data
          (setModel getDefaultConfig "primary" "qwen2.5")) ∧
      (((stringifyConfig getDefaultConfig).data =
            (stringifyConfig getDefaultConfig).data ∨
          ∃ k, k ≤ (stringifyConfig
              (setModel getDefaultConfig "primary" "qwen2.5")).data.length ∧
            (stringifyConfig getDefaultConfig).data =
              (stringifyConfig
                (setModel getDefaultConfig "primary" "qwen2.5")).data.take k) ∧
        (stringifyConfig (setModel getDefaultConfig "primary" "qwen2.5")).data ∈
          saveStates (stringifyConfig getDefaultConfig).data
            (setModel getDefaultConfig "primary" "qwen2.5")) :=
  ⟨List.mem_cons_self _ _,
    save_direct_write_prefix (stringifyConfig getDefaultConfig).data
      (setModel getDefaultConfig "primary" "qwen2.5")
      (stringifyConfig getDefaultConfig).data (List.mem_cons_self _ _)⟩

theorem lookupAssoc_setAssoc_self (l : List (String × String)) (s k : String) :
    lookupAssoc (setAssoc l s k) s = some k := by
  induction l with
  | nil => simp [setAssoc, lookupAssoc]
  | cons p t ih =>
    by_cases h : p.1 = s
    · simp [setAssoc, lookupAssoc, h]
    · simp [setAssoc, lookupAssoc, h, ih]

/-- C10: getApiKey returns null both for a service with no stored key and
for a stored empty-string key; after setApiKey(s, ""), getApiKey(s) is null,
so a cleared key is indistinguishable from a never-set key. -/
theorem getApiKey_empty_is_null (c : CliConfig) (s : String) :
    (lookupAssoc c.apiKeys s = none → getApiKey c s = none) ∧
      getApiKey (setApiKey c s "") s = none := by
  constructor
  · intro h
    unfold getApiKey
    rw [h]
  · unfold getApiKey setApiKey
    simp only
    rw [lookupAssoc_setAssoc_self]
    simp

theorem getApiKey_empty_is_null_witness :
    (lookupAssoc getDefaultConfig.apiKeys "helius" = none) ∧
      getApiKey getDefaultConfig "helius" = none ∧
      getApiKey (setApiKey getDefaultConfig "helius" "") "helius" = none :=
  ⟨rfl, (getApiKey_empty_is_null getDefaultConfig "helius").1 rfl,
    (getApiKey_empty_is_null getDefaultConfig "helius").2⟩
